import Mathlib

/-!
Shallow embedding of the jira_cloud_bulk_archive Go tool.

The remote HTTP boundary is abstracted as oracles: the bulk-archive RPC is a
function from the list of issue keys to `Except` (error string or parsed
response); the paginated search RPC is a function from the continuation state
(token or offset) to `Except` (error string or parsed page).  Every definition
below mirrors the corresponding Go function from the repository sources.
-/

namespace JiraArchive

/-- Mirrors `IssueFields` from internal/jira/client.go. -/
structure IssueFields where
  summary : String
deriving Repr, DecidableEq

/-- Mirrors `Issue` from internal/jira/client.go. -/
structure Issue where
  id : String
  key : String
  fields : IssueFields
deriving Repr, DecidableEq

/-- Mirrors `SearchResult` (cursor discipline) from internal/jira/client.go:
issues, total, nextPageToken. -/
structure SearchResult where
  issues : List Issue
  total : Int
  nextPageToken : String
deriving Repr, DecidableEq

/-- Mirrors `SearchResult` of the offset-discipline client (src/unnamed/part_001,
second file): issues, total, startAt, maxResults. -/
structure SearchResultOffset where
  issues : List Issue
  total : Int
  startAt : Int
  maxResults : Int
deriving Repr, DecidableEq

/-- Mirrors `ArchiveResponse` from internal/jira/client.go; the Go field is a
possibly-nil `map[string]string`, embedded as an optional association list. -/
structure ArchiveResponse where
  errors : Option (List (String × String))
deriving Repr, DecidableEq

/-- Mirrors `ArchiveResult` from pkg/worker/archiver.go; the Go `Error error`
field (nil or an error value) is embedded as `Option String`. -/
structure ArchiveResult where
  issueKey : String
  success : Bool
  error : Option String
deriving Repr, DecidableEq

/-- Go map indexing `m[k]` on a `map[string]string`: the stored value, or the
zero value `""` when the key is absent. -/
def mapGet (m : List (String × String)) (k : String) : String :=
  match m.find? (fun p => p.1 == k) with
  | some p => p.2
  | none => ""

/-- The Go expression `resp.Errors != nil && resp.Errors[key]` used by
`processBatch`: `""` when the map is nil or the key is absent. -/
def respError (resp : ArchiveResponse) (key : String) : String :=
  match resp.errors with
  | some m => mapGet m key
  | none => ""

/-- Observable behaviour of `(*jira.Client).ArchiveIssues`: the bulk-archive
RPC, from the list of issue keys to an error or a parsed response. -/
abbrev BulkClient := List String → Except String ArchiveResponse

/-- Mirrors `Archiver` from pkg/worker/archiver.go; the `client` field carries
the observable behaviour of the embedded jira client's bulk archive RPC. -/
structure Archiver where
  client : BulkClient
  batchSize : Nat

/-- Mirrors `NewArchiver` from pkg/worker/archiver.go: the second (worker
count) argument is discarded (`_ int` in Go) and the batch size is fixed at
1000. -/
def NewArchiver (client : BulkClient) (_ : Int) : Archiver :=
  { client := client, batchSize := 1000 }

/-- Mirrors `createBatches` from pkg/worker/archiver.go, parametrised by the
batch size: repeatedly slice off the next `batchSize` issues.  The Go loop
does not terminate when `batchSize = 0`; that case (unreachable, the Archiver
always uses 1000) returns `[]` here so the function is total. -/
def createBatches (batchSize : Nat) (issues : List Issue) : List (List Issue) :=
  if hB : batchSize = 0 then []
  else if h : issues = [] then []
  else issues.take batchSize :: createBatches batchSize (issues.drop batchSize)
termination_by issues.length
decreasing_by
  simp only [List.length_drop]
  exact Nat.sub_lt (List.length_pos.mpr h) (Nat.pos_of_ne_zero hB)

/-- Mirrors `processBatch` from pkg/worker/archiver.go: one bulk RPC for the
whole batch; on outright RPC failure every issue of the batch gets a failure
result carrying that same error; on success an issue fails iff the response's
error map holds a non-empty message for its key. -/
def Archiver.processBatch (a : Archiver) (batch : List Issue) : List ArchiveResult :=
  let issueKeys := batch.map (fun issue => issue.key)
  match a.client issueKeys with
  | .error err =>
      batch.map (fun issue => { issueKey := issue.key, success := false, error := some err })
  | .ok resp =>
      batch.map (fun issue =>
        if respError resp issue.key ≠ "" then
          { issueKey := issue.key, success := false, error := some (respError resp issue.key) }
        else
          { issueKey := issue.key, success := true, error := none })

/-- Instrumented `processBatch`: same results, paired with the log of bulk
RPC calls it issues (`processBatch` invokes `a.client.ArchiveIssues` exactly
once, on the whole batch's keys). -/
def Archiver.processBatchCalls (a : Archiver) (batch : List Issue) :
    List ArchiveResult × List (List String) :=
  (a.processBatch batch, [batch.map (fun issue => issue.key)])

/-- Mirrors `ArchiveIssues` from pkg/worker/archiver.go: empty input short
circuits to `[]`; otherwise the batches are processed strictly sequentially
and their results appended in order. -/
def Archiver.ArchiveIssues (a : Archiver) (issues : List Issue) : List ArchiveResult :=
  if issues.length = 0 then []
  else
    let batches := createBatches a.batchSize issues
    (batches.map a.processBatch).flatten

/-- Observable output of `PrintSummary` from pkg/worker/archiver.go: the
counts and the per-failure lines. -/
structure Summary where
  total : Nat
  successful : Nat
  failed : Nat
  failureLines : List (String × Option String)
deriving Repr, DecidableEq

/-- Mirrors `PrintSummary` from pkg/worker/archiver.go as a fold over the
results. -/
def PrintSummary (results : List ArchiveResult) : Summary :=
  { total := results.length
  , successful := (results.filter (fun r => r.success)).length
  , failed := (results.filter (fun r => !r.success)).length
  , failureLines := (results.filter (fun r => !r.success)).map (fun r => (r.issueKey, r.error)) }

/-- Observable behaviour of `(*jira.Client).SearchIssues` (cursor discipline):
from the continuation token sent on the request to the RPC's result.  The jql
string and page size are fixed by `GetAllIssuesByLabel`, so the oracle closes
over them. -/
abbrev SearchClient := String → Except String SearchResult

/-- Observable behaviour of `(*jira.Client).SearchIssues` (offset discipline,
src/unnamed/part_001): from the `startAt` offset sent on the request to the
RPC's result. -/
abbrev SearchClientOffset := Nat → Except String SearchResultOffset

/-- Mirrors the `for` loop of `GetAllIssuesByLabel` from
internal/jira/client.go (cursor discipline).  The unbounded Go loop is given
explicit fuel: `none` means the loop has not finished within `fuel`
iterations; `some` is the Go function's return value. -/
def GetAllIssuesByLabel (search : SearchClient) :
    Nat → String → List Issue → Option (Except String (List Issue))
  | 0, _, _ => none
  | fuel + 1, nextPageToken, allIssues =>
    match search nextPageToken with
    | .error e => some (.error e)
    | .ok result =>
      let acc := allIssues ++ result.issues
      if result.nextPageToken = "" then some (.ok acc)
      else GetAllIssuesByLabel search fuel result.nextPageToken acc

/-- Mirrors the `for` loop of `GetAllIssuesByLabel` from src/unnamed/part_001
(offset discipline): stop once `startAt + len(result.Issues) >= result.Total`,
else retry with `startAt += maxResults`.  Fueled like the cursor version. -/
def GetAllIssuesByLabelOffset (search : SearchClientOffset) (maxResults : Nat) :
    Nat → Nat → List Issue → Option (Except String (List Issue))
  | 0, _, _ => none
  | fuel + 1, startAt, allIssues =>
    match search startAt with
    | .error e => some (.error e)
    | .ok result =>
      let acc := allIssues ++ result.issues
      if result.total ≤ (startAt : Int) + result.issues.length then some (.ok acc)
      else GetAllIssuesByLabelOffset search maxResults fuel (startAt + maxResults) acc

/-- The search RPC serves the finite page sequence `rs` starting from `token`:
each page is returned without error, every page but the last carries a
non-empty continuation token, and the last page's token is empty. -/
inductive ServesChain (search : SearchClient) : String → List SearchResult → Prop
  | last (token : String) (r : SearchResult) :
      search token = .ok r → r.nextPageToken = "" →
      ServesChain search token [r]
  | step (token : String) (r : SearchResult) (rest : List SearchResult) :
      search token = .ok r → r.nextPageToken ≠ "" →
      ServesChain search r.nextPageToken rest →
      ServesChain search token (r :: rest)

/-- The search RPC serves the pages `rs` from `token` without finishing
(every served page carries a non-empty continuation token), leaving the loop
about to request token `tokEnd`. -/
inductive ServesPrefix (search : SearchClient) : String → List SearchResult → String → Prop
  | nil (token : String) : ServesPrefix search token [] token
  | cons (token : String) (r : SearchResult) (rest : List SearchResult) (tokEnd : String) :
      search token = .ok r → r.nextPageToken ≠ "" →
      ServesPrefix search r.nextPageToken rest tokEnd →
      ServesPrefix search token (r :: rest) tokEnd

/-- Offset-discipline analogue of `ServesChain`: the RPC serves the finite
page sequence `rs` starting at offset `startAt`, the loop's exit condition
`total <= startAt + len(issues)` holding exactly at the last page. -/
inductive ServesChainOffset (search : SearchClientOffset) (maxResults : Nat) :
    Nat → List SearchResultOffset → Prop
  | last (startAt : Nat) (r : SearchResultOffset) :
      search startAt = .ok r → r.total ≤ (startAt : Int) + r.issues.length →
      ServesChainOffset search maxResults startAt [r]
  | step (startAt : Nat) (r : SearchResultOffset) (rest : List SearchResultOffset) :
      search startAt = .ok r → ¬ r.total ≤ (startAt : Int) + r.issues.length →
      ServesChainOffset search maxResults (startAt + maxResults) rest →
      ServesChainOffset search maxResults startAt (r :: rest)

/-- Mirrors `Config` from internal/config/config.go. -/
structure Config where
  jiraBaseURL : String
  jiraEmail : String
  jiraAPIToken : String
  jiraProjectKey : String
  archiveLabel : String
  maxWorkers : Int
deriving Repr, DecidableEq

/-- Mirrors `(*Config).Validate` from internal/config/config.go. -/
def Config.Validate (c : Config) : Except String Unit :=
  if c.jiraBaseURL = "" then .error "JIRA_BASE_URL is required"
  else if c.jiraEmail = "" then .error "JIRA_EMAIL is required"
  else if c.jiraAPIToken = "" then .error "JIRA_API_TOKEN is required"
  else if c.jiraProjectKey = "" then .error "JIRA_PROJECT_KEY is required"
  else if c.maxWorkers < 1 then .error "MAX_WORKERS must be at least 1"
  else .ok ()

/-- Mirrors `getEnvOrDefault` from internal/config/config.go; `env` models
`os.Getenv`, which returns `""` for an unset variable. -/
def getEnvOrDefault (env : String → String) (key defaultValue : String) : String :=
  if env key ≠ "" then env key else defaultValue

/-- Mirrors `getIntEnvOrDefault` from internal/config/config.go;
`strconv.Atoi` is embedded as `String.toInt?`. -/
def getIntEnvOrDefault (env : String → String) (key : String) (defaultValue : Int) : Int :=
  if env key ≠ "" then
    match (env key).toInt? with
    | some v => v
    | none => defaultValue
  else defaultValue

/-- Mirrors `config.Load` from internal/config/config.go. -/
def Load (env : String → String) : Except String Config :=
  let config : Config :=
    { jiraBaseURL := env "JIRA_BASE_URL"
    , jiraEmail := env "JIRA_EMAIL"
    , jiraAPIToken := env "JIRA_API_TOKEN"
    , jiraProjectKey := env "JIRA_PROJECT_KEY"
    , archiveLabel := getEnvOrDefault env "ARCHIVE_LABEL" "archive"
    , maxWorkers := getIntEnvOrDefault env "MAX_WORKERS" 5 }
  match config.Validate with
  | .error e => .error e
  | .ok _ => .ok config

/-- Observable outcome of one run of `main` from cmd/archive/main.go: the
process exit status, the final logged message, whether the Archiver was
invoked, and the printed summary (absent when none was printed). -/
structure RunResult where
  exitCode : Nat
  finalMessage : String
  executorInvoked : Bool
  summaryPrinted : Option Summary
deriving Repr, DecidableEq

/-- Mirrors `main` from cmd/archive/main.go.  `log.Fatalf` exits the process
with status 1.  `searchFuel` bounds the locate loop as in
`GetAllIssuesByLabel`; `none` means the locate loop did not finish within the
fuel. -/
def mainRun (env : String → String) (search : SearchClient) (client : BulkClient)
    (searchFuel : Nat) : Option RunResult :=
  match Load env with
  | .error e =>
      some { exitCode := 1, finalMessage := "Failed to load configuration: " ++ e
           , executorInvoked := false, summaryPrinted := none }
  | .ok cfg =>
    match GetAllIssuesByLabel search searchFuel "" [] with
    | none => none
    | some (.error e) =>
        some { exitCode := 1, finalMessage := "Failed to search for issues: " ++ e
             , executorInvoked := false, summaryPrinted := none }
    | some (.ok issues) =>
      if issues.length = 0 then
        some { exitCode := 0, finalMessage := "No issues to archive. Exiting."
             , executorInvoked := false, summaryPrinted := none }
      else
        let results := (NewArchiver client cfg.maxWorkers).ArchiveIssues issues
        let hasFailures := results.any (fun r => !r.success)
        some { exitCode := if hasFailures then 1 else 0
             , finalMessage :=
                 if hasFailures then "Completed with errors"
                 else "All issues archived successfully!"
             , executorInvoked := true
             , summaryPrinted := some (PrintSummary results) }

/-! Helper lemmas about the batching executor. -/

/-- Each batch result of `processBatch` carries the key of the issue at the
same position. -/
theorem processBatch_map_key (a : Archiver) (batch : List Issue) :
    (a.processBatch batch).map (fun r => r.issueKey) = batch.map (fun i => i.key) := by
  simp only [Archiver.processBatch]
  rcases hc : a.client (batch.map (fun issue => issue.key)) with err | resp
  · rw [hc]
    simp [List.map_map, Function.comp]
  · rw [hc]
    simp only [List.map_map]
    refine List.map_congr_left ?_
    intro i _
    by_cases h : respError resp i.key ≠ "" <;> simp [h, Function.comp]

/-- Key preservation extends across a list of batches. -/
theorem flatten_processBatch_map_key (a : Archiver) :
    ∀ bs : List (List Issue),
      ((bs.map a.processBatch).flatten).map (fun r => r.issueKey) =
        bs.flatten.map (fun i => i.key)
  | [] => by simp
  | b :: bs => by
    simp only [List.map_cons, List.flatten_cons, List.map_append,
      processBatch_map_key, flatten_processBatch_map_key a bs]

/-- `createBatches` flattens back to the input list. -/
theorem createBatches_flatten (B : Nat) (hB : B ≠ 0) (issues : List Issue) :
    (createBatches B issues).flatten = issues := by
  induction issues using createBatches.induct B with
  | case1 x h0 => exact absurd h0 hB
  | case2 h0 => rw [createBatches]; simp
  | case3 x h0 hnil ih =>
    rw [createBatches]
    simp only [h0, hnil, dite_false, List.flatten_cons]
    rw [ih]
    exact List.take_append_drop B x

/-- `createBatches` produces `⌈M / B⌉` batches, written `(M + B - 1) / B`. -/
theorem createBatches_count (B : Nat) (hB : B ≠ 0) (issues : List Issue) :
    (createBatches B issues).length = (issues.length + B - 1) / B := by
  induction issues using createBatches.induct B with
  | case1 x h0 => exact absurd h0 hB
  | case2 h0 =>
    rw [createBatches]
    simp only [dif_neg h0, List.length_nil]
    have : B - 1 < B := Nat.sub_lt (Nat.pos_of_ne_zero hB) Nat.one_pos
    simp [Nat.div_eq_of_lt this]
  | case3 x h0 hnil ih =>
    rw [createBatches]
    simp only [h0, hnil, dite_false, List.length_cons]
    rw [ih]
    have hx : 1 ≤ x.length := List.length_pos.mpr hnil
    have hBpos : 0 < B := Nat.pos_of_ne_zero hB
    rw [List.length_drop]
    have hr : x.length + B - 1 = (x.length - 1) + B := by omega
    rw [hr, Nat.add_div_right _ hBpos]
    by_cases hle : x.length ≤ B
    · have h1 : x.length - B + B - 1 = B - 1 := by omega
      rw [h1, Nat.div_eq_of_lt (by omega : B - 1 < B),
        Nat.div_eq_of_lt (by omega : x.length - 1 < B)]
    · have h1 : x.length - B + B - 1 = x.length - 1 := by omega
      rw [h1]

/-- Every batch produced by `createBatches` has at most `B` elements. -/
theorem createBatches_sizes (B : Nat) (hB : B ≠ 0) (issues : List Issue) :
    ∀ b ∈ createBatches B issues, b.length ≤ B := by
  induction issues using createBatches.induct B with
  | case1 x h0 => exact absurd h0 hB
  | case2 h0 => rw [createBatches]; simp
  | case3 x h0 hnil ih =>
    rw [createBatches]
    simp only [dif_neg h0, dif_neg hnil, List.mem_cons]
    rintro b (rfl | hb)
    · rw [List.length_take]; omega
    · exact ih b hb

/-- `createBatches` yields no batch exactly on empty input (for `B ≠ 0`). -/
theorem createBatches_eq_nil (B : Nat) (hB : B ≠ 0) (issues : List Issue) :
    createBatches B issues = [] ↔ issues = [] := by
  constructor
  · intro h
    by_contra hne
    rw [createBatches, dif_neg hB, dif_neg hne] at h
    exact List.cons_ne_nil _ _ h
  · intro h
    subst h
    rw [createBatches]
    simp

/-- Every batch of `createBatches` except possibly the last has exactly `B`
elements. -/
theorem createBatches_dropLast (B : Nat) (hB : B ≠ 0) (issues : List Issue) :
    ∀ b ∈ (createBatches B issues).dropLast, b.length = B := by
  induction issues using createBatches.induct B with
  | case1 x h0 => exact absurd h0 hB
  | case2 h0 => rw [createBatches]; simp
  | case3 x h0 hnil ih =>
    rw [createBatches, dif_neg h0, dif_neg hnil]
    intro b hb
    by_cases hrest : createBatches B (x.drop B) = []
    · rw [hrest] at hb
      simp at hb
    · rw [List.dropLast_cons_of_ne_nil hrest, List.mem_cons] at hb
      rcases hb with rfl | hb
      · have hdrop : x.drop B ≠ [] := by
          intro hd
          rw [hd] at hrest
          exact hrest ((createBatches_eq_nil B hB []).mpr rfl)
        have hlt : B < x.length := by
          by_contra hle
          push_neg at hle
          exact hdrop (List.drop_eq_nil_of_le hle)
        rw [List.length_take]
        omega
      · exact ih b hb

/-- `ArchiveIssues` preserves the input keys in order. -/
theorem archiveIssues_map_key (client : BulkClient) (n : Int) (issues : List Issue) :
    ((NewArchiver client n).ArchiveIssues issues).map (fun r => r.issueKey) =
      issues.map (fun i => i.key) := by
  unfold Archiver.ArchiveIssues
  by_cases h : issues.length = 0
  · rw [List.length_eq_zero] at h
    subst h
    simp
  · simp only [h, if_false]
    rw [flatten_processBatch_map_key,
      createBatches_flatten _ (by simp [NewArchiver]) issues]

/-! Helper lemmas about the locate loops. -/

/-- When the search RPC serves the finite page chain `rs`, the cursor-driven
locate loop returns the accumulator followed by the concatenation of the
pages' issue lists, in order. -/
theorem getAllIssues_servesChain (search : SearchClient) :
    ∀ {token : String} {rs : List SearchResult}, ServesChain search token rs →
      ∀ (acc : List Issue) (fuel : Nat), rs.length ≤ fuel →
        GetAllIssuesByLabel search fuel token acc =
          some (.ok (acc ++ (rs.map (fun r => r.issues)).flatten)) := by
  intro token rs h
  induction h with
  | last token r hok hend =>
    intro acc fuel hfuel
    cases fuel with
    | zero => simp at hfuel
    | succ f => simp [GetAllIssuesByLabel, hok, hend]
  | step token r rest hok hne hrest ih =>
    intro acc fuel hfuel
    cases fuel with
    | zero => simp at hfuel
    | succ f =>
      simp only [GetAllIssuesByLabel, hok]
      rw [if_neg hne, ih (acc ++ r.issues) f (by simpa using hfuel)]
      simp

/-- When the search RPC fails at any page — also after a non-empty prefix of
pages was already served and accumulated — the cursor-driven locate loop
returns exactly that error. -/
theorem getAllIssues_error (search : SearchClient) :
    ∀ {token : String} {rs : List SearchResult} {tokEnd : String},
      ServesPrefix search token rs tokEnd →
      ∀ (e : String), search tokEnd = .error e →
        ∀ (acc : List Issue) (fuel : Nat), rs.length < fuel →
          GetAllIssuesByLabel search fuel token acc = some (.error e) := by
  intro token rs tokEnd h
  induction h with
  | nil token =>
    intro e he acc fuel hfuel
    cases fuel with
    | zero => simp at hfuel
    | succ f => simp [GetAllIssuesByLabel, he]
  | cons token r rest tokEnd hok hne hrest ih =>
    intro e he acc fuel hfuel
    cases fuel with
    | zero => simp at hfuel
    | succ f =>
      simp only [GetAllIssuesByLabel, hok]
      rw [if_neg hne]
      exact ih e he _ f (by simpa using hfuel)

/-- Offset-discipline analogue of `getAllIssues_servesChain`. -/
theorem getAllIssuesOffset_servesChain (search : SearchClientOffset) (maxResults : Nat) :
    ∀ {startAt : Nat} {rs : List SearchResultOffset},
      ServesChainOffset search maxResults startAt rs →
      ∀ (acc : List Issue) (fuel : Nat), rs.length ≤ fuel →
        GetAllIssuesByLabelOffset search maxResults fuel startAt acc =
          some (.ok (acc ++ (rs.map (fun r => r.issues)).flatten)) := by
  intro startAt rs h
  induction h with
  | last startAt r hok hend =>
    intro acc fuel hfuel
    cases fuel with
    | zero => simp at hfuel
    | succ f => simp [GetAllIssuesByLabelOffset, hok, hend]
  | step startAt r rest hok hne hrest ih =>
    intro acc fuel hfuel
    cases fuel with
    | zero => simp at hfuel
    | succ f =>
      simp only [GetAllIssuesByLabelOffset, hok]
      rw [if_neg hne, ih (acc ++ r.issues) f (by simpa using hfuel)]
      simp

/-- When every successful page reports the same fixed total `T`, the
offset-discipline locate loop finishes within any fuel that lets the offset
pass `T`, whatever the per-page record counts are. -/
theorem getAllIssuesOffset_terminates (search : SearchClientOffset) (maxResults : Nat)
    (T : Nat) (hT : ∀ off r, search off = .ok r → r.total = (T : Int)) :
    ∀ (fuel startAt : Nat) (acc : List Issue), 1 ≤ fuel →
      T ≤ startAt + (fuel - 1) * maxResults →
      (GetAllIssuesByLabelOffset search maxResults fuel startAt acc).isSome := by
  intro fuel
  induction fuel with
  | zero => intro startAt acc h1 _; simp at h1
  | succ f ih =>
    intro startAt acc _ hle
    rcases hc : search startAt with e | r
    · simp [GetAllIssuesByLabelOffset, hc]
    · simp only [GetAllIssuesByLabelOffset, hc]
      by_cases hstop : r.total ≤ (startAt : Int) + r.issues.length
      · rw [if_pos hstop]
        simp
      · rw [if_neg hstop]
        have htot := hT startAt r hc
        have hsa : startAt < T := by
          rw [htot] at hstop
          omega
        simp only [Nat.add_sub_cancel] at hle
        obtain ⟨f', rfl⟩ : ∃ f', f = f' + 1 := by
          cases f with
          | zero => exfalso; simp at hle; omega
          | succ f' => exact ⟨f', rfl⟩
        refine ih (startAt + maxResults) (acc ++ r.issues) (by omega) ?_
        simp only [Nat.add_sub_cancel]
        have hgoal : startAt + maxResults + f' * maxResults =
            startAt + (f' + 1) * maxResults := by ring
        rw [hgoal]
        exact hle

/-! Claim theorems. -/

/-- C1: for every candidate list, the batched executor's `ArchiveIssues`
returns exactly one outcome per input candidate, the i-th outcome's key is
the i-th candidate's key (input order preserved across and within batches),
and the multiset of outcome keys equals the multiset of candidate keys. -/
theorem claim_C1 (client : BulkClient) (n : Int) (issues : List Issue) :
    ((NewArchiver client n).ArchiveIssues issues).length = issues.length ∧
    ((NewArchiver client n).ArchiveIssues issues).map (fun r => r.issueKey) =
      issues.map (fun i => i.key) ∧
    (∀ i : Nat,
      (((NewArchiver client n).ArchiveIssues issues)[i]?).map (fun r => r.issueKey) =
        (issues[i]?).map (fun i => i.key)) ∧
    (((NewArchiver client n).ArchiveIssues issues).map (fun r => r.issueKey) : Multiset String) =
      (issues.map (fun i => i.key) : Multiset String) := by
  have hmap := archiveIssues_map_key client n issues
  refine ⟨?_, hmap, ?_, ?_⟩
  · simpa using congrArg List.length hmap
  · intro i
    rw [← List.getElem?_map, ← List.getElem?_map, hmap]
  · rw [hmap]

/-- C2: for batch size `B ≥ 1` and input length `M`, `createBatches`
produces exactly `⌈M / B⌉` batches (written `(M + B - 1) / B`), each of size
at most `B`, all but possibly the last of size exactly `B`, and flattening
the batches in order reproduces the input. -/
theorem claim_C2 (B : Nat) (hB : 1 ≤ B) (issues : List Issue) :
    (createBatches B issues).length = (issues.length + B - 1) / B ∧
    (∀ b ∈ createBatches B issues, b.length ≤ B) ∧
    (∀ b ∈ (createBatches B issues).dropLast, b.length = B) ∧
    (createBatches B issues).flatten = issues :=
  ⟨createBatches_count B (by omega) issues,
   createBatches_sizes B (by omega) issues,
   createBatches_dropLast B (by omega) issues,
   createBatches_flatten B (by omega) issues⟩

/-- C3: when the bulk archive RPC fails outright on a batch, every candidate
of the batch receives a failure outcome carrying that same error, none
receives a success outcome, and the batch issues exactly one bulk call over
the whole batch's keys (no retry, no finer splitting). -/
theorem claim_C3 (a : Archiver) (batch : List Issue) (err : String)
    (h : a.client (batch.map (fun issue => issue.key)) = .error err) :
    a.processBatch batch =
      batch.map (fun issue =>
        { issueKey := issue.key, success := false, error := some err }) ∧
    (∀ r ∈ a.processBatch batch, r.success = false ∧ r.error = some err) ∧
    (a.processBatchCalls batch).2 = [batch.map (fun issue => issue.key)] := by
  have heq : a.processBatch batch =
      batch.map (fun issue =>
        { issueKey := issue.key, success := false, error := some err }) := by
    simp only [Archiver.processBatch]
    rw [h]
  refine ⟨heq, ?_, rfl⟩
  intro r hr
  rw [heq] at hr
  rcases List.mem_map.mp hr with ⟨i, _, rfl⟩
  exact ⟨rfl, rfl⟩

/-- C4: when the bulk archive RPC succeeds with response `resp`, an outcome
is a failure iff the response's error map holds a non-empty message for its
key, a failing outcome carries exactly that message, and the error detail is
present iff the success flag is false. -/
theorem claim_C4 (a : Archiver) (batch : List Issue) (resp : ArchiveResponse)
    (h : a.client (batch.map (fun issue => issue.key)) = .ok resp) :
    ∀ r ∈ a.processBatch batch,
      (r.success = false ↔ respError resp r.issueKey ≠ "") ∧
      r.error = (if respError resp r.issueKey ≠ ""
        then some (respError resp r.issueKey) else none) ∧
      (r.error ≠ none ↔ r.success = false) := by
  intro r hr
  have heq : a.processBatch batch =
      batch.map (fun issue =>
        if respError resp issue.key ≠ "" then
          { issueKey := issue.key, success := false, error := some (respError resp issue.key) }
        else
          { issueKey := issue.key, success := true, error := none }) := by
    simp only [Archiver.processBatch]
    rw [h]
  rw [heq] at hr
  rcases List.mem_map.mp hr with ⟨i, _, rfl⟩
  by_cases hc : respError resp i.key ≠ "" <;> simp [hc]

/-- C10: the configured worker count is accepted but ignored by the batched
strategy: `NewArchiver` yields identical archivers (batch size 1000) for any
two worker counts, so `ArchiveIssues` is unaffected by the configured
concurrency. -/
theorem claim_C10 (client : BulkClient) (n1 n2 : Int) :
    NewArchiver client n1 = NewArchiver client n2 ∧
    (NewArchiver client n1).batchSize = 1000 ∧
    ∀ issues : List Issue,
      (NewArchiver client n1).ArchiveIssues issues =
        (NewArchiver client n2).ArchiveIssues issues :=
  ⟨rfl, rfl, fun _ => rfl⟩

/-- C5: if the search RPC fails at any page — also after the pages `rs` were
already served and accumulated — the cursor-driven locate loop returns
exactly that error, and never a candidate list: the partial accumulated
results are discarded. -/
theorem claim_C5 (search : SearchClient) (rs : List SearchResult) (tokEnd e : String)
    (hpre : ServesPrefix search "" rs tokEnd) (herr : search tokEnd = .error e)
    (fuel : Nat) (hfuel : rs.length < fuel) :
    GetAllIssuesByLabel search fuel "" [] = some (.error e) ∧
    ∀ issues : List Issue,
      GetAllIssuesByLabel search fuel "" [] ≠ some (.ok issues) := by
  have h := getAllIssues_error search hpre e herr [] fuel hfuel
  refine ⟨h, ?_⟩
  intro issues hcontra
  rw [h] at hcontra
  simp at hcontra

/-- C6: under both pagination disciplines, the locate loop's result is
exactly the in-order concatenation of the pages the server returned — every
served record appears exactly once, none lost or duplicated across page
boundaries — and its length is the sum of the per-page record counts. -/
theorem claim_C6 (search : SearchClient) (searchOff : SearchClientOffset)
    (maxResults : Nat) (rs : List SearchResult) (rsOff : List SearchResultOffset)
    (hc : ServesChain search "" rs)
    (ho : ServesChainOffset searchOff maxResults 0 rsOff) :
    (GetAllIssuesByLabel search rs.length "" [] =
        some (.ok ((rs.map (fun r => r.issues)).flatten)) ∧
      ((rs.map (fun r => r.issues)).flatten).length =
        (rs.map (fun r => r.issues.length)).sum) ∧
    (GetAllIssuesByLabelOffset searchOff maxResults rsOff.length 0 [] =
        some (.ok ((rsOff.map (fun r => r.issues)).flatten)) ∧
      ((rsOff.map (fun r => r.issues)).flatten).length =
        (rsOff.map (fun r => r.issues.length)).sum) := by
  refine ⟨⟨?_, ?_⟩, ?_, ?_⟩
  · simpa using getAllIssues_servesChain search hc [] rs.length le_rfl
  · simp only [List.length_flatten, List.map_map]
    rfl
  · simpa using getAllIssuesOffset_servesChain searchOff maxResults ho [] rsOff.length le_rfl
  · simp only [List.length_flatten, List.map_map]
    rfl

/-- C7: both locate loops terminate whenever the page sequence is finite —
cursor discipline: the server serves a finite chain whose last page carries
an empty continuation token; offset discipline: every successful page
reports the same fixed total `T` — with no assumption that non-final pages
are full. -/
theorem claim_C7 (search : SearchClient) (rs : List SearchResult)
    (searchOff : SearchClientOffset) (maxResults T : Nat)
    (hc : ServesChain search "" rs)
    (hT : ∀ off r, searchOff off = .ok r → r.total = (T : Int))
    (fuel : Nat) (hfuel : 1 ≤ fuel) (henough : T ≤ (fuel - 1) * maxResults) :
    (GetAllIssuesByLabel search rs.length "" []).isSome ∧
    (GetAllIssuesByLabelOffset searchOff maxResults fuel 0 []).isSome := by
  constructor
  · rw [getAllIssues_servesChain search hc [] rs.length le_rfl]
    rfl
  · exact getAllIssuesOffset_terminates searchOff maxResults T hT fuel 0 []
      hfuel (by simpa using henough)

/-- C8: when zero candidates are located, the run exits with status 0, logs
the distinct nothing-to-archive message instead of printing a summary, the
executor is not invoked, and the run's result does not depend on the archive
RPC at all; moreover `ArchiveIssues` on an empty list is `[]` without any
RPC. -/
theorem claim_C8 (env : String → String) (search : SearchClient)
    (client1 client2 : BulkClient) (fuel : Nat) (cfg : Config)
    (hcfg : Load env = .ok cfg)
    (hsearch : GetAllIssuesByLabel search fuel "" [] = some (.ok [])) :
    mainRun env search client1 fuel =
      some { exitCode := 0, finalMessage := "No issues to archive. Exiting."
           , executorInvoked := false, summaryPrinted := none } ∧
    mainRun env search client1 fuel = mainRun env search client2 fuel ∧
    ∀ a : Archiver, a.ArchiveIssues [] = [] := by
  refine ⟨?_, ?_, ?_⟩
  · simp [mainRun, hcfg, hsearch]
  · simp [mainRun, hcfg, hsearch]
  · intro a
    simp [Archiver.ArchiveIssues]

/-- C9: the process exit status is 0 when every outcome succeeds (vacuously
covering the empty candidate set), 1 when at least one outcome fails, and 1
with a fatal message when configuration loading fails or the locate query
fails. -/
theorem claim_C9 (env : String → String) (search : SearchClient) (client : BulkClient)
    (fuel : Nat) :
    (∀ e, Load env = .error e →
      mainRun env search client fuel =
        some { exitCode := 1, finalMessage := "Failed to load configuration: " ++ e
             , executorInvoked := false, summaryPrinted := none }) ∧
    (∀ cfg e, Load env = .ok cfg →
      GetAllIssuesByLabel search fuel "" [] = some (.error e) →
      mainRun env search client fuel =
        some { exitCode := 1, finalMessage := "Failed to search for issues: " ++ e
             , executorInvoked := false, summaryPrinted := none }) ∧
    (∀ cfg issues, Load env = .ok cfg →
      GetAllIssuesByLabel search fuel "" [] = some (.ok issues) →
      (∀ r ∈ (NewArchiver client cfg.maxWorkers).ArchiveIssues issues, r.success = true) →
      ∃ res, mainRun env search client fuel = some res ∧ res.exitCode = 0) ∧
    (∀ cfg issues, Load env = .ok cfg →
      GetAllIssuesByLabel search fuel "" [] = some (.ok issues) →
      (∃ r ∈ (NewArchiver client cfg.maxWorkers).ArchiveIssues issues, r.success = false) →
      ∃ res, mainRun env search client fuel = some res ∧ res.exitCode = 1) := by
  refine ⟨?_, ?_, ?_, ?_⟩
  · intro e he
    simp [mainRun, he]
  · intro cfg e hcfg hsearch
    simp [mainRun, hcfg, hsearch]
  · intro cfg issues hcfg hsearch hall
    by_cases hlen : issues.length = 0
    · refine ⟨{ exitCode := 0, finalMessage := "No issues to archive. Exiting."
              , executorInvoked := false, summaryPrinted := none }, ?_, rfl⟩
      simp [mainRun, hcfg, hsearch, hlen]
    · have hfail : ((NewArchiver client cfg.maxWorkers).ArchiveIssues issues).any
          (fun r => !r.success) = false := by
        rw [List.any_eq_false]
        intro r hr
        simp [hall r hr]
      refine ⟨{ exitCode := 0, finalMessage := "All issues archived successfully!"
              , executorInvoked := true
              , summaryPrinted :=
                  some (PrintSummary ((NewArchiver client cfg.maxWorkers).ArchiveIssues issues)) },
        ?_, rfl⟩
      simp [mainRun, hcfg, hsearch, hlen, hfail]
  · intro cfg issues hcfg hsearch hex
    have hne : issues.length ≠ 0 := by
      intro hlen
      rw [List.length_eq_zero] at hlen
      subst hlen
      rcases hex with ⟨r, hr, _⟩
      rw [Archiver.ArchiveIssues] at hr
      simp at hr
    have hfail : ((NewArchiver client cfg.maxWorkers).ArchiveIssues issues).any
        (fun r => !r.success) = true := by
      rw [List.any_eq_true]
      rcases hex with ⟨r, hr, hs⟩
      exact ⟨r, hr, by simp [hs]⟩
    refine ⟨{ exitCode := 1, finalMessage := "Completed with errors"
            , executorInvoked := true
            , summaryPrinted :=
                some (PrintSummary ((NewArchiver client cfg.maxWorkers).ArchiveIssues issues)) },
      ?_, rfl⟩
    simp [mainRun, hcfg, hsearch, hne, hfail]

/-! Concrete fixtures for the witnesses. -/

/-- Sample issue. -/
def issueA : Issue := { id := "10001", key := "PROJ-1", fields := { summary := "a" } }

/-- Sample issue. -/
def issueB : Issue := { id := "10002", key := "PROJ-2", fields := { summary := "b" } }

/-- Sample issue. -/
def issueC : Issue := { id := "10003", key := "PROJ-3", fields := { summary := "c" } }

/-- Sample issue. -/
def issueD : Issue := { id := "10004", key := "PROJ-4", fields := { summary := "d" } }

/-- Sample issue. -/
def issueE : Issue := { id := "10005", key := "PROJ-5", fields := { summary := "e" } }

/-- Five sample candidates. -/
def sampleIssues : List Issue := [issueA, issueB, issueC, issueD, issueE]

/-- A bulk client whose RPC always fails outright. -/
def failClient : BulkClient := fun _ => .error "connection refused"

/-- Archiver over the always-failing bulk client. -/
def failArchiver : Archiver := NewArchiver failClient 5

/-- A successful bulk response whose error map rejects one key. -/
def respPartial : ArchiveResponse :=
  { errors := some [("PROJ-2", "Issue cannot be archived")] }

/-- A bulk client whose RPC succeeds with a per-key error for PROJ-2. -/
def partialClient : BulkClient := fun _ => .ok respPartial

/-- Archiver over the partially-failing bulk client. -/
def partialArchiver : Archiver := NewArchiver partialClient 5

/-- Outcome produced for the rejected key PROJ-2. -/
def failedResult : ArchiveResult :=
  { issueKey := "PROJ-2", success := false, error := some "Issue cannot be archived" }

/-- First page served by the two-page cursor server. -/
def pageOne : SearchResult := { issues := [issueA, issueB], total := 3, nextPageToken := "next" }

/-- Second and final page served by the two-page cursor server. -/
def pageTwo : SearchResult := { issues := [issueC], total := 3, nextPageToken := "" }

/-- Cursor-discipline search server serving two pages then stopping. -/
def twoPageSearch : SearchClient := fun tok =>
  if tok = "" then .ok pageOne else .ok pageTwo

/-- Cursor-discipline search server that serves one page and then fails. -/
def crashingSearch : SearchClient := fun tok =>
  if tok = "" then .ok pageOne else .error "API returned status 500"

/-- First page of the offset server: one record on a non-final page (fewer
than the page size). -/
def pageOneOff : SearchResultOffset :=
  { issues := [issueA], total := 3, startAt := 0, maxResults := 100 }

/-- Final page of the offset server. -/
def pageTwoOff : SearchResultOffset :=
  { issues := [issueB, issueC], total := 3, startAt := 100, maxResults := 100 }

/-- Offset-discipline search server serving two pages with fixed total 3. -/
def twoPageSearchOff : SearchClientOffset := fun off =>
  if off = 0 then .ok pageOneOff else .ok pageTwoOff

/-- Environment providing every required configuration variable. -/
def goodEnv : String → String := fun key =>
  if key = "JIRA_BASE_URL" then "https://example.atlassian.net"
  else if key = "JIRA_EMAIL" then "user@example.com"
  else if key = "JIRA_API_TOKEN" then "secret-token"
  else if key = "JIRA_PROJECT_KEY" then "PROJ"
  else ""

/-- The configuration `Load` builds from `goodEnv`. -/
def goodConfig : Config :=
  { jiraBaseURL := "https://example.atlassian.net"
  , jiraEmail := "user@example.com"
  , jiraAPIToken := "secret-token"
  , jiraProjectKey := "PROJ"
  , archiveLabel := "archive"
  , maxWorkers := 5 }

/-- Environment with every variable unset. -/
def badEnv : String → String := fun _ => ""

/-- Search server returning a single empty final page. -/
def emptySearch : SearchClient := fun _ =>
  .ok { issues := [], total := 0, nextPageToken := "" }

/-! Witnesses. -/

/-- C2 witness: batch size 2 over five candidates. -/
theorem claim_C2_witness :
    1 ≤ 2 ∧
    ((createBatches 2 sampleIssues).length = (sampleIssues.length + 2 - 1) / 2 ∧
     (∀ b ∈ createBatches 2 sampleIssues, b.length ≤ 2) ∧
     (∀ b ∈ (createBatches 2 sampleIssues).dropLast, b.length = 2) ∧
     (createBatches 2 sampleIssues).flatten = sampleIssues) :=
  ⟨by decide, claim_C2 2 (by decide) sampleIssues⟩

/-- C3 witness: a failing bulk RPC marks all five candidates failed with the
same error. -/
theorem claim_C3_witness :
    failArchiver.processBatch sampleIssues =
      sampleIssues.map (fun issue =>
        { issueKey := issue.key, success := false, error := some "connection refused" }) :=
  (claim_C3 failArchiver sampleIssues "connection refused" rfl).1

/-- C4 witness: the outcome for the rejected key PROJ-2 in a successful
batch with a per-key error map. -/
theorem claim_C4_witness :
    (failedResult.success = false ↔ respError respPartial failedResult.issueKey ≠ "") ∧
    failedResult.error = (if respError respPartial failedResult.issueKey ≠ ""
      then some (respError respPartial failedResult.issueKey) else none) ∧
    (failedResult.error ≠ none ↔ failedResult.success = false) :=
  claim_C4 partialArchiver sampleIssues respPartial rfl failedResult (by decide)

/-- C5 witness: the search fails on the second page, after one page was
accumulated; the locate result is that error. -/
theorem claim_C5_witness :
    GetAllIssuesByLabel crashingSearch 2 "" [] =
      some (Except.error "API returned status 500") :=
  (claim_C5 crashingSearch [pageOne] "next" "API returned status 500"
    (ServesPrefix.cons "" pageOne [] "next" rfl (by decide)
      (ServesPrefix.nil "next"))
    rfl 2 (by decide)).1

/-- C6 witness: two cursor pages (2 + 1 records) and two offset pages
(1 + 2 records, the first short of the page size) each locate the three
records exactly once, in order. -/
theorem claim_C6_witness :
    GetAllIssuesByLabel twoPageSearch 2 "" [] =
      some (Except.ok [issueA, issueB, issueC]) ∧
    GetAllIssuesByLabelOffset twoPageSearchOff 100 2 0 [] =
      some (Except.ok [issueA, issueB, issueC]) := by
  have h := claim_C6 twoPageSearch twoPageSearchOff 100
    [pageOne, pageTwo] [pageOneOff, pageTwoOff]
    (ServesChain.step "" pageOne [pageTwo] rfl (by decide)
      (ServesChain.last "next" pageTwo rfl (by decide)))
    (ServesChainOffset.step 0 pageOneOff [pageTwoOff] rfl (by decide)
      (ServesChainOffset.last 100 pageTwoOff rfl (by decide)))
  exact ⟨by simpa [pageOne, pageTwo] using h.1.1,
    by simpa [pageOneOff, pageTwoOff] using h.2.1⟩

/-- C7 witness: both locate loops finish on the two-page servers. -/
theorem claim_C7_witness :
    (GetAllIssuesByLabel twoPageSearch 2 "" []).isSome ∧
    (GetAllIssuesByLabelOffset twoPageSearchOff 100 2 0 []).isSome :=
  claim_C7 twoPageSearch [pageOne, pageTwo] twoPageSearchOff 100 3
    (ServesChain.step "" pageOne [pageTwo] rfl (by decide)
      (ServesChain.last "next" pageTwo rfl (by decide)))
    (fun off r hr => by
      unfold twoPageSearchOff at hr
      by_cases h0 : off = 0
      · rw [if_pos h0] at hr
        cases hr
        decide
      · rw [if_neg h0] at hr
        cases hr
        decide)
    2 (by decide) (by decide)

/-- C8 witness: an empty candidate set exits 0 with the nothing-to-archive
message and no summary. -/
theorem claim_C8_witness :
    mainRun goodEnv emptySearch failClient 1 =
      some { exitCode := 0, finalMessage := "No issues to archive. Exiting."
           , executorInvoked := false, summaryPrinted := none } :=
  (claim_C8 goodEnv emptySearch failClient partialClient 1 goodConfig
    rfl rfl).1

/-- C9 witness: a missing required configuration variable exits non-zero
with the fatal configuration message. -/
theorem claim_C9_witness :
    mainRun badEnv emptySearch failClient 1 =
      some { exitCode := 1
           , finalMessage := "Failed to load configuration: JIRA_BASE_URL is required"
           , executorInvoked := false, summaryPrinted := none } :=
  (claim_C9 badEnv emptySearch failClient 1).1 "JIRA_BASE_URL is required" rfl

end JiraArchive
